import Mathlib

/-!
Verification of the ARMS slot monitor (src/api_monitor.py) against its
specification.  The development shallowly embeds the state-change
detection pipeline of `monitor_thread` (per-slot baselines, snapshot
diffing, the asymmetric increase-only notification policy) and the
error-alert rate limiter of `alert_admin`, together with the clearing
operations of `handle_set_cookie`, `auto_login` and `fetch_courses`.
-/

set_option autoImplicit false

namespace ArmsMonitor

/-- A course record as it appears in the ARMS JSON payload: the fields
read by `monitor_thread` and `summarise` (`SubjectId`, `SubjectCode`,
`SubjectName`, `AvailableCount`). -/
structure Course where
  SubjectId : Nat
  SubjectCode : String
  SubjectName : String
  AvailableCount : Nat
deriving DecidableEq

/-- The per-slot baseline stored in `monitor_thread`'s `baselines`
dictionary: `{"count": current_count, "courses": courses}`. -/
structure Baseline where
  count : Nat
  courses : List Course
deriving DecidableEq

/-- The decision produced by one observation of a slot: either nothing
happens, or a notification with old/new counts, delta and the added
records is broadcast (the `Increase` branch of `monitor_thread`). -/
inductive Decision where
  | NoAction : Decision
  | Increase (oldCount newCount delta : Nat) (added : List Course) : Decision
deriving DecidableEq

/-- Whether a decision is an `Increase`. -/
def Decision.isIncrease : Decision → Bool
  | .NoAction => false
  | .Increase _ _ _ _ => true

/-! ### Python dictionaries

The source uses Python `dict`s in three places: the `baselines` map, the
`SubjectId`-keyed comprehensions `prev_ids` / `curr_ids`, and the
`_last_alert` map.  A Python dict is modelled as an association list:
assignment to an existing key updates the value in place (keeping the
key's original position), assignment to a fresh key appends, and
iteration/lookup walk the list front to back. -/

/-- Lookup in an association list, mirroring Python `d.get(k)` /
`k in d`. -/
def pyLookup {α β : Type} [DecidableEq α] : List (α × β) → α → Option β
  | [], _ => none
  | (k, v) :: t, k0 => if k = k0 then some v else pyLookup t k0

/-- Assignment `d[k] = v` on a Python dict: update the existing entry in place or
append a new one. -/
def pyInsert {α β : Type} [DecidableEq α] : List (α × β) → α → β → List (α × β)
  | [], k0, v0 => [(k0, v0)]
  | (k, v) :: t, k0, v0 =>
      if k = k0 then (k0, v0) :: t else (k, v) :: pyInsert t k0 v0

/-- Removal `d.pop(k, None)` on a Python dict: drop the entry for `k`, if any. -/
def pyPop {α β : Type} [DecidableEq α] : List (α × β) → α → List (α × β)
  | [], _ => []
  | (k, v) :: t, k0 => if k = k0 then t else (k, v) :: pyPop t k0

/-- Membership `k in d` on a Python dict. -/
def pyHasKey {α β : Type} [DecidableEq α] (d : List (α × β)) (k : α) : Bool :=
  (pyLookup d k).isSome

/-! ### The slot change detector (`monitor_thread`, lines 661-709) -/

/-- The `baselines : dict[int, dict]` of `monitor_thread`. -/
abbrev BMap : Type := List (Nat × Baseline)

/-- The dict comprehension `{c["SubjectId"]: c for c in courses}` used to
build `prev_ids` and `curr_ids`: entries are inserted in list order, a
repeated `SubjectId` keeps its first position but its value is
overwritten by the later record. -/
def idDict (courses : List Course) : List (Nat × Course) :=
  courses.foldl (fun d c => pyInsert d c.SubjectId c) []

/-- The `added_lines` loop: iterate `curr_ids.items()` and keep the
records whose `SubjectId` is not a key of `prev_ids`.  The embedding
keeps the course records themselves; the source formats each one into a
display line, a pure rendering step. -/
def addedRecords (prev_courses courses : List Course) : List Course :=
  ((idDict courses).filter (fun p => !pyHasKey (idDict prev_courses) p.1)).map Prod.snd

/-- One observation of a slot: the body of `monitor_thread`'s per-slot
loop from `current_count = len(courses)` on (lines 661-709), as a pure
function from the `baselines` map to the new map and the decision.
* no baseline yet: store `{count, courses}`, continue (no action);
* count changed: replace the baseline; on an increase compute the delta
  and the added records and notify, on a decrease stay silent;
* count unchanged: leave the map untouched. -/
def observe (baselines : BMap) (slot_id : Nat) (courses : List Course) :
    BMap × Decision :=
  let current_count := courses.length
  match pyLookup baselines slot_id with
  | none => (pyInsert baselines slot_id ⟨current_count, courses⟩, .NoAction)
  | some b =>
      let prev_count := b.count
      let prev_courses := b.courses
      if current_count ≠ prev_count then
        let baselines' := pyInsert baselines slot_id ⟨current_count, courses⟩
        if prev_count < current_count then
          (baselines', .Increase prev_count current_count
            (current_count - prev_count) (addedRecords prev_courses courses))
        else
          (baselines', .NoAction)
      else
        (baselines, .NoAction)

/-- A sequence of successful observations of one slot, in order. -/
def observeSeq (baselines : BMap) (slot_id : Nat)
    (snaps : List (List Course)) : BMap :=
  snaps.foldl (fun m s => (observe m slot_id s).1) baselines

/-- One slot of one poll cycle as `monitor_thread` runs it: `courses =
fetch_courses(slot_id)`; a `None` result (any fetch failure) skips the
slot via `continue`, otherwise the snapshot is observed.  The second
component is `none` exactly when `observe` was not invoked. -/
def processSlot (baselines : BMap) (slot_id : Nat)
    (fetched : Option (List Course)) : BMap × Option Decision :=
  match fetched with
  | none => (baselines, none)
  | some courses =>
      let r := observe baselines slot_id courses
      (r.1, some r.2)

/-! ### The error alert limiter (`alert_admin`, lines 550-556) -/

/-- The `_last_alert : dict[str, float]` map.  Timestamps are modelled
as integers (`time.time()` seconds). -/
abbrev LMap : Type := List (String × Int)

/-- The constant `ALERT_COOLDOWN = 3600` seconds. -/
def ALERT_COOLDOWN : Int := 3600

/-- Lookup `_last_alert.get(key, 0)`. -/
def lastAlertGet (m : LMap) (key : String) : Int :=
  (pyLookup m key).getD 0

/-- The rate-limiting core of `alert_admin` (the spec's
`shouldAlert(key, now, cooldown)`): if `now - _last_alert.get(key, 0)`
is below the cooldown the alert is suppressed and the map is untouched;
otherwise `_last_alert[key] = now` is recorded and the alert is sent.
Returns (sent?, new map). -/
def shouldAlert (m : LMap) (key : String) (now cooldown : Int) : Bool × LMap :=
  if now - lastAlertGet m key < cooldown then (false, m)
  else (true, pyInsert m key now)

/-- The operations the program performs on `_last_alert`:
* `alert key now` — a call to `alert_admin` (an error to report);
* `clearAll` — `_last_alert.clear()`, done by `handle_set_cookie`
  (lines 474-477) and by a successful `auto_login` (lines 149-152);
* `popKey key` — `_last_alert.pop(key, None)`, done by a successful
  `fetch_courses` for the slot's empty-response key (lines 595-598). -/
inductive LimiterOp where
  | alert (key : String) (now : Int) : LimiterOp
  | clearAll : LimiterOp
  | popKey (key : String) : LimiterOp
deriving DecidableEq

/-- The effect of one limiter operation on the `_last_alert` map. -/
def limStep (cooldown : Int) (m : LMap) : LimiterOp → LMap
  | .alert key now => (shouldAlert m key now cooldown).2
  | .clearAll => []
  | .popKey key => pyPop m key

/-- Run a sequence of limiter operations. -/
def limRun (cooldown : Int) (m : LMap) (ops : List LimiterOp) : LMap :=
  ops.foldl (limStep cooldown) m

/-- Whether an `alert_admin` call fires (returns `true`) in state `m`. -/
def alertFires (cooldown : Int) (m : LMap) (key : String) (now : Int) : Bool :=
  (shouldAlert m key now cooldown).1

/-- The per-slot failure-category keys used by `fetch_courses`:
`f"slot{slot_id}_empty"`, `..._conn`, `..._timeout`, `..._http`,
`..._err`. -/
def slotKey (slot_id : Nat) (category : String) : String :=
  "slot" ++ toString slot_id ++ "_" ++ category

/-- The effect of a *successful* `fetch_courses(slot_id)` on
`_last_alert` (lines 595-598): only the slot's empty-response key is
popped; the other failure-category keys are untouched. -/
def fetchSuccessClear (slot_id : Nat) (m : LMap) : LMap :=
  pyPop m (slotKey slot_id "empty")

/-! ### Association-list lemmas -/

theorem pyLookup_pyInsert_self {α β : Type} [DecidableEq α]
    (d : List (α × β)) (k : α) (v : β) :
    pyLookup (pyInsert d k v) k = some v := by
  induction d with
  | nil => simp [pyInsert, pyLookup]
  | cons p t ih =>
      obtain ⟨k1, v1⟩ := p
      by_cases h : k1 = k
      · simp [pyInsert, pyLookup, h]
      · simp [pyInsert, pyLookup, h, ih]

theorem pyLookup_pyInsert_ne {α β : Type} [DecidableEq α]
    (d : List (α × β)) (k k0 : α) (v : β) (h : k0 ≠ k) :
    pyLookup (pyInsert d k v) k0 = pyLookup d k0 := by
  have h' : k ≠ k0 := Ne.symm h
  induction d with
  | nil => simp [pyInsert, pyLookup, h']
  | cons p t ih =>
      obtain ⟨k1, v1⟩ := p
      by_cases h1 : k1 = k
      · subst h1
        simp [pyInsert, pyLookup, h']
      · by_cases h2 : k1 = k0 <;> simp [pyInsert, pyLookup, h, h', h1, h2, ih]

theorem pyLookup_pyPop_ne {α β : Type} [DecidableEq α]
    (d : List (α × β)) (k k0 : α) (h : k0 ≠ k) :
    pyLookup (pyPop d k) k0 = pyLookup d k0 := by
  have h' : k ≠ k0 := Ne.symm h
  induction d with
  | nil => simp [pyPop]
  | cons p t ih =>
      obtain ⟨k1, v1⟩ := p
      by_cases h1 : k1 = k
      · subst h1
        simp [pyPop, pyLookup, h']
      · by_cases h2 : k1 = k0 <;> simp [pyPop, pyLookup, h, h', h1, h2, ih]

theorem pyLookup_eq_none_of_not_memKeys {α β : Type} [DecidableEq α]
    (d : List (α × β)) (k : α) (h : k ∉ d.map Prod.fst) :
    pyLookup d k = none := by
  induction d with
  | nil => rfl
  | cons p t ih =>
      obtain ⟨k1, v1⟩ := p
      simp only [List.map_cons, List.mem_cons] at h
      push_neg at h
      have h1 : k1 ≠ k := Ne.symm h.1
      simp [pyLookup, h1, ih h.2]

theorem pyLookup_pyPop_self {α β : Type} [DecidableEq α]
    (d : List (α × β)) (k : α) (hnd : (d.map Prod.fst).Nodup) :
    pyLookup (pyPop d k) k = none := by
  induction d with
  | nil => rfl
  | cons p t ih =>
      obtain ⟨k1, v1⟩ := p
      simp only [List.map_cons, List.nodup_cons] at hnd
      by_cases h1 : k1 = k
      · subst h1
        simp only [pyPop, if_pos rfl]
        exact pyLookup_eq_none_of_not_memKeys t k1 hnd.1
      · simp [pyPop, pyLookup, h1, ih hnd.2]

theorem pyLookup_append_of_none {α β : Type} [DecidableEq α]
    (d e : List (α × β)) (k : α) (h : pyLookup d k = none) :
    pyLookup (d ++ e) k = pyLookup e k := by
  induction d with
  | nil => rfl
  | cons p t ih =>
      obtain ⟨k1, v1⟩ := p
      by_cases h1 : k1 = k
      · simp [pyLookup, h1] at h
      · simp only [pyLookup, if_neg h1] at h
        simp [pyLookup, h1, ih h]

theorem pyInsert_of_lookup_none {α β : Type} [DecidableEq α]
    (d : List (α × β)) (k : α) (v : β) (h : pyLookup d k = none) :
    pyInsert d k v = d ++ [(k, v)] := by
  induction d with
  | nil => rfl
  | cons p t ih =>
      obtain ⟨k1, v1⟩ := p
      by_cases h1 : k1 = k
      · simp [pyLookup, h1] at h
      · simp only [pyLookup, if_neg h1] at h
        simp [pyInsert, h1, ih h]

theorem pyHasKey_pyInsert_iff {α β : Type} [DecidableEq α]
    (d : List (α × β)) (k k0 : α) (v : β) :
    pyHasKey (pyInsert d k v) k0 = true ↔
      (pyHasKey d k0 = true ∨ k = k0) := by
  by_cases h : k = k0
  · subst h
    simp [pyHasKey, pyLookup_pyInsert_self]
  · have h' : k0 ≠ k := Ne.symm h
    simp [pyHasKey, pyLookup_pyInsert_ne d k k0 v h', h]

/-- Keys of the `SubjectId` dict comprehension are exactly the
`SubjectId`s occurring in the course list. -/
theorem pyHasKey_idDict (l : List Course) (k : Nat) :
    pyHasKey (idDict l) k = true ↔ k ∈ l.map Course.SubjectId := by
  suffices h : ∀ d0 : List (Nat × Course),
      pyHasKey (l.foldl (fun d c => pyInsert d c.SubjectId c) d0) k = true ↔
        (pyHasKey d0 k = true ∨ k ∈ l.map Course.SubjectId) by
    have h0 := h []
    simpa [idDict, pyHasKey, pyLookup] using h0
  induction l with
  | nil => simp
  | cons c t ih =>
      intro d0
      have step := ih (pyInsert d0 c.SubjectId c)
      simp only [List.foldl_cons] at *
      rw [step]
      rw [pyHasKey_pyInsert_iff]
      simp only [List.map_cons, List.mem_cons]
      constructor
      · rintro ((hA | hE) | hB)
        exacts [Or.inl hA, Or.inr (Or.inl hE.symm), Or.inr (Or.inr hB)]
      · rintro (hA | hE | hB)
        exacts [Or.inl (Or.inl hA), Or.inl (Or.inr hE.symm), Or.inr hB]

/-- With pairwise-distinct `SubjectId`s the dict comprehension is just
the list of (id, record) pairs in list order. -/
theorem idDict_eq_map_of_nodup (l : List Course)
    (hnd : (l.map Course.SubjectId).Nodup) :
    idDict l = l.map (fun c => (c.SubjectId, c)) := by
  suffices h : ∀ d0 : List (Nat × Course),
      (∀ c ∈ l, pyLookup d0 c.SubjectId = none) →
      l.foldl (fun d c => pyInsert d c.SubjectId c) d0 =
        d0 ++ l.map (fun c => (c.SubjectId, c)) by
    simpa [idDict] using h [] (by intro c _; rfl)
  induction l with
  | nil => intro d0 _; simp
  | cons c t ih =>
      intro d0 hfresh
      simp only [List.map_cons, List.nodup_cons] at hnd
      simp only [List.foldl_cons]
      rw [pyInsert_of_lookup_none d0 c.SubjectId c (hfresh c (by simp))]
      rw [ih hnd.2]
      · simp
      · intro c' hc'
        have hd0 : pyLookup d0 c'.SubjectId = none := hfresh c' (by simp [hc'])
        rw [pyLookup_append_of_none d0 _ _ hd0]
        have hne : c.SubjectId ≠ c'.SubjectId := by
          intro he
          exact hnd.1 (he ▸ List.mem_map_of_mem Course.SubjectId hc')
        simp [pyLookup, hne]

/-- With pairwise-distinct `SubjectId`s in the new snapshot, the
`added_lines` computation keeps exactly the new-snapshot records whose
`SubjectId` does not occur in the previous snapshot, in snapshot
order. -/
theorem addedRecords_eq_filter (prev curr : List Course)
    (hc : (curr.map Course.SubjectId).Nodup) :
    addedRecords prev curr =
      curr.filter
        (fun c => !decide (c.SubjectId ∈ prev.map Course.SubjectId)) := by
  unfold addedRecords
  rw [idDict_eq_map_of_nodup curr hc]
  clear hc
  induction curr with
  | nil => rfl
  | cons c t ih =>
      by_cases hm : c.SubjectId ∈ prev.map Course.SubjectId
      · have hk : pyHasKey (idDict prev) c.SubjectId = true :=
          (pyHasKey_idDict prev c.SubjectId).mpr hm
        simp [List.filter, hk, hm, ih]
      · have hk : pyHasKey (idDict prev) c.SubjectId = false :=
          Bool.eq_false_iff.mpr
            (fun h => hm ((pyHasKey_idDict prev c.SubjectId).mp h))
        simp [List.filter, hk, hm, ih]

/-- Inversion: when `observe` of a slot with baseline `b` returns an
`Increase`, the new count exceeds the baseline count and the carried
fields are the ones computed in the increase branch. -/
theorem observe_increase_inversion (baselines : BMap) (slot_id : Nat)
    (b : Baseline) (curr : List Course)
    (oldC newC delta : Nat) (added : List Course)
    (hb : pyLookup baselines slot_id = some b)
    (h : (observe baselines slot_id curr).2 =
      .Increase oldC newC delta added) :
    b.count < curr.length ∧ added = addedRecords b.courses curr := by
  rcases Nat.lt_trichotomy b.count curr.length with hlt | heq | hgt
  · have hne : curr.length ≠ b.count := Nat.ne_of_gt hlt
    simp [observe, hb, hne, hlt] at h
    exact ⟨hlt, h.2.2.2.symm⟩
  · simp [observe, hb, heq.symm] at h
  · have hne : curr.length ≠ b.count := Nat.ne_of_lt hgt
    have hnlt : ¬ b.count < curr.length := Nat.lt_asymm hgt
    simp [observe, hb, hne, hnlt] at h

/-- What the `baselines` map holds after a sequence of observations of
one slot, starting from no baseline: the stored baseline is some
observed snapshot `s` (split off as `pre ++ s :: suf`) such that every
later snapshot has the same count — i.e. the most recent snapshot whose
arrival changed the count — and the stored count equals the count of
the last snapshot observed. -/
theorem observeSeq_last_change (slot_id : Nat) (snaps : List (List Course)) :
    snaps = [] ∨
      ∃ (b : Baseline) (pre suf : List (List Course)) (s lastS : List Course),
        pyLookup (observeSeq [] slot_id snaps) slot_id = some b ∧
        snaps = pre ++ s :: suf ∧
        b.courses = s ∧ b.count = s.length ∧
        (∀ t ∈ suf, t.length = s.length) ∧
        snaps.getLast? = some lastS ∧ b.count = lastS.length := by
  induction snaps using List.reverseRecOn with
  | nil => exact Or.inl rfl
  | append_singleton l x ih =>
      right
      have hrun : observeSeq [] slot_id (l ++ [x]) =
          (observe (observeSeq [] slot_id l) slot_id x).1 := by
        simp [observeSeq, List.foldl_append]
      rcases ih with hnil | ⟨b, pre, suf, s, lastS, hlook, hsplit, hcourses,
        hcount, hsuf, _hlast, _hlastlen⟩
      · subst hnil
        refine ⟨⟨x.length, x⟩, [], [], x, x, ?_, by simp, rfl, rfl,
          by simp, by simp, rfl⟩
        rw [hrun]
        simp [observeSeq, observe, pyLookup, pyInsert]
      · by_cases heq : x.length = b.count
        · refine ⟨b, pre, suf ++ [x], s, x, ?_, ?_, hcourses, hcount, ?_,
            by simp, heq.symm⟩
          · rw [hrun]
            simp [observe, hlook, heq]
          · rw [hsplit]
            simp
          · intro t ht
            rcases List.mem_append.mp ht with h1 | h2
            · exact hsuf t h1
            · have : t = x := by simpa using h2
              subst this
              rw [heq, hcount]
        · refine ⟨⟨x.length, x⟩, l, [], x, x, ?_, by simp, rfl, rfl,
            by simp, by simp, rfl⟩
          rw [hrun]
          by_cases hlt : b.count < x.length <;>
            simp [observe, hlook, heq, hlt, pyLookup_pyInsert_self]

/-! ### Claim theorems -/

/-- C1: for a slot that already has a baseline, `observe` returns
`Increase` iff the new count exceeds the baseline count; when it does,
the decision carries `oldCount` = baseline count, `newCount` = snapshot
count, `delta = newCount - oldCount > 0`, and the baseline is replaced
with the new snapshot. -/
theorem observe_increase_iff (baselines : BMap) (slot_id : Nat)
    (b : Baseline) (curr : List Course)
    (hb : pyLookup baselines slot_id = some b) :
    ((observe baselines slot_id curr).2.isIncrease = true ↔
      b.count < curr.length) ∧
    (b.count < curr.length →
      (observe baselines slot_id curr).2 =
        .Increase b.count curr.length (curr.length - b.count)
          (addedRecords b.courses curr) ∧
      0 < curr.length - b.count ∧
      pyLookup (observe baselines slot_id curr).1 slot_id =
        some ⟨curr.length, curr⟩) := by
  rcases Nat.lt_trichotomy b.count curr.length with hlt | heq | hgt
  · have hne : curr.length ≠ b.count := Nat.ne_of_gt hlt
    simp [observe, hb, hne, hlt, Decision.isIncrease,
      pyLookup_pyInsert_self, Nat.sub_pos_of_lt hlt]
  · simp [observe, hb, heq.symm, Decision.isIncrease]
  · have hne : curr.length ≠ b.count := Nat.ne_of_lt hgt
    have hnlt : ¬ b.count < curr.length := Nat.lt_asymm hgt
    simp [observe, hb, hne, hnlt, Decision.isIncrease]

/-- C1 witness: a concrete slot with baseline count 1 and a new
two-course snapshot yields the expected `Increase` and replaces the
baseline. -/
theorem observe_increase_iff_witness :
    ((observe [(4, ⟨1, [⟨10, "A", "Alg", 2⟩]⟩)] 4
        [⟨10, "A", "Alg", 2⟩, ⟨11, "B", "Bio", 1⟩]).2.isIncrease = true ↔
      (1 : Nat) < 2) ∧
    ((1 : Nat) < 2 →
      (observe [(4, ⟨1, [⟨10, "A", "Alg", 2⟩]⟩)] 4
          [⟨10, "A", "Alg", 2⟩, ⟨11, "B", "Bio", 1⟩]).2 =
        .Increase 1 2 (2 - 1)
          (addedRecords [⟨10, "A", "Alg", 2⟩]
            [⟨10, "A", "Alg", 2⟩, ⟨11, "B", "Bio", 1⟩]) ∧
      0 < 2 - 1 ∧
      pyLookup (observe [(4, ⟨1, [⟨10, "A", "Alg", 2⟩]⟩)] 4
          [⟨10, "A", "Alg", 2⟩, ⟨11, "B", "Bio", 1⟩]).1 4 =
        some ⟨2, [⟨10, "A", "Alg", 2⟩, ⟨11, "B", "Bio", 1⟩]⟩) :=
  observe_increase_iff [(4, ⟨1, [⟨10, "A", "Alg", 2⟩]⟩)] 4
    ⟨1, [⟨10, "A", "Alg", 2⟩]⟩
    [⟨10, "A", "Alg", 2⟩, ⟨11, "B", "Bio", 1⟩] (by decide)

/-- C2: a first observation of a slot (no baseline stored) returns
`NoAction` — never `Increase`, whatever the count, including an empty
snapshot — and stores the snapshot with its count as the baseline. -/
theorem observe_first_noAction (baselines : BMap) (slot_id : Nat)
    (curr : List Course)
    (hb : pyLookup baselines slot_id = none) :
    (observe baselines slot_id curr).2 = .NoAction ∧
    pyLookup (observe baselines slot_id curr).1 slot_id =
      some ⟨curr.length, curr⟩ := by
  simp [observe, hb, pyLookup_pyInsert_self]

/-- C2 witness: the spec scenario — a never-observed slot observed with
an empty snapshot yields `NoAction` and a count-0 baseline. -/
theorem observe_first_noAction_witness :
    (observe [] 4 []).2 = .NoAction ∧
    pyLookup (observe [] 4 []).1 4 = some ⟨0, []⟩ :=
  observe_first_noAction [] 4 [] (by decide)

/-- C4: with an existing baseline, an equal count returns `NoAction`
and leaves the whole baselines map (hence the stored snapshot and
count) unchanged; a smaller count returns `NoAction` and replaces the
baseline with the new snapshot, so the stored count equals the latest
snapshot's count in both cases. -/
theorem observe_noAction_frame (baselines : BMap) (slot_id : Nat)
    (b : Baseline) (curr : List Course)
    (hb : pyLookup baselines slot_id = some b) :
    (curr.length = b.count →
      observe baselines slot_id curr = (baselines, .NoAction)) ∧
    (curr.length < b.count →
      (observe baselines slot_id curr).2 = .NoAction ∧
      pyLookup (observe baselines slot_id curr).1 slot_id =
        some ⟨curr.length, curr⟩) := by
  constructor
  · intro heq
    simp [observe, hb, heq]
  · intro hlt
    have hne : curr.length ≠ b.count := Nat.ne_of_lt hlt
    have hnlt : ¬ b.count < curr.length := Nat.lt_asymm hlt
    simp [observe, hb, hne, hnlt, pyLookup_pyInsert_self]

/-- C4 witness: a slot with baseline count 1; re-observing the same
single-course snapshot changes nothing, observing an empty snapshot
replaces the baseline with count 0. -/
theorem observe_noAction_frame_witness :
    ((1 : Nat) = 1 →
      observe [(4, ⟨1, [⟨10, "A", "Alg", 2⟩]⟩)] 4 [⟨10, "A", "Alg", 2⟩] =
        ([(4, ⟨1, [⟨10, "A", "Alg", 2⟩]⟩)], .NoAction)) ∧
    ((0 : Nat) < 1 →
      (observe [(4, ⟨1, [⟨10, "A", "Alg", 2⟩]⟩)] 4 []).2 = .NoAction ∧
      pyLookup (observe [(4, ⟨1, [⟨10, "A", "Alg", 2⟩]⟩)] 4 []).1 4 =
        some ⟨0, []⟩) :=
  ⟨fun _ => (observe_noAction_frame [(4, ⟨1, [⟨10, "A", "Alg", 2⟩]⟩)] 4
      ⟨1, [⟨10, "A", "Alg", 2⟩]⟩ [⟨10, "A", "Alg", 2⟩] (by decide)).1 (by decide),
   fun _ => (observe_noAction_frame [(4, ⟨1, [⟨10, "A", "Alg", 2⟩]⟩)] 4
      ⟨1, [⟨10, "A", "Alg", 2⟩]⟩ [] (by decide)).2 (by decide)⟩

/-- C9: in a poll cycle, a slot whose fetch fails (`fetch_courses`
returned `None`) is skipped: `observe` is not invoked (no decision is
produced) and the baselines map is left untouched. -/
theorem processSlot_failed_fetch (baselines : BMap) (slot_id : Nat) :
    processSlot baselines slot_id none = (baselines, none) := rfl

/-- C3: with pairwise-distinct `SubjectId`s on both sides and a count
increase, the `added` sequence of the `Increase` decision is exactly
the new-snapshot records whose `SubjectId` is absent from the baseline
snapshot, in the new snapshot's iteration order. -/
theorem observe_added_exact (baselines : BMap) (slot_id : Nat)
    (b : Baseline) (curr : List Course)
    (hb : pyLookup baselines slot_id = some b)
    (hp : (b.courses.map Course.SubjectId).Nodup)
    (hc : (curr.map Course.SubjectId).Nodup)
    (hcount : b.count < curr.length) :
    (observe baselines slot_id curr).2 =
      .Increase b.count curr.length (curr.length - b.count)
        (curr.filter
          (fun c => !decide (c.SubjectId ∈ b.courses.map Course.SubjectId))) := by
  have hne : curr.length ≠ b.count := Nat.ne_of_gt hcount
  simp [observe, hb, hne, hcount, addedRecords_eq_filter b.courses curr hc]

/-- C3 witness: the spec scenario — baseline with ids 1,2,3 observed
with ids 1..5 yields `Increase{3,5,2}` whose added records are exactly
those with ids 4 and 5, in snapshot order. -/
theorem observe_added_exact_witness :
    (observe
        [(4, ⟨3, [⟨1, "S1", "N1", 1⟩, ⟨2, "S2", "N2", 1⟩, ⟨3, "S3", "N3", 1⟩]⟩)]
        4
        [⟨1, "S1", "N1", 1⟩, ⟨2, "S2", "N2", 1⟩, ⟨3, "S3", "N3", 1⟩,
         ⟨4, "S4", "N4", 1⟩, ⟨5, "S5", "N5", 1⟩]).2 =
      .Increase 3 5 2 [⟨4, "S4", "N4", 1⟩, ⟨5, "S5", "N5", 1⟩] :=
  (observe_added_exact
      [(4, ⟨3, [⟨1, "S1", "N1", 1⟩, ⟨2, "S2", "N2", 1⟩, ⟨3, "S3", "N3", 1⟩]⟩)]
      4
      ⟨3, [⟨1, "S1", "N1", 1⟩, ⟨2, "S2", "N2", 1⟩, ⟨3, "S3", "N3", 1⟩]⟩
      [⟨1, "S1", "N1", 1⟩, ⟨2, "S2", "N2", 1⟩, ⟨3, "S3", "N3", 1⟩,
       ⟨4, "S4", "N4", 1⟩, ⟨5, "S5", "N5", 1⟩]
      (by decide) (by decide) (by decide) (by decide)).trans (by decide)

/-- C10: with pairwise-distinct `SubjectId`s in the baseline snapshot
and in the new snapshot (and a well-formed baseline, whose stored count
is its snapshot's count, as `monitor_thread` always stores it), an
`Increase` decision always carries a non-empty `added` sequence; and
without the uniqueness precondition an `Increase` with an empty `added`
sequence is possible (second conjunct: a duplicated-id snapshot). -/
theorem observe_increase_added_nonempty :
    (∀ (baselines : BMap) (slot_id : Nat) (b : Baseline)
        (curr : List Course) (oldC newC delta : Nat) (added : List Course),
      pyLookup baselines slot_id = some b →
      b.count = b.courses.length →
      (b.courses.map Course.SubjectId).Nodup →
      (curr.map Course.SubjectId).Nodup →
      (observe baselines slot_id curr).2 =
        .Increase oldC newC delta added →
      added ≠ []) ∧
    (observe [(1, ⟨1, [⟨7, "X", "Xn", 1⟩]⟩)] 1
        [⟨7, "X", "Xn", 1⟩, ⟨7, "X", "Xn", 1⟩]).2 = .Increase 1 2 1 [] := by
  constructor
  · intro baselines slot_id b curr oldC newC delta added hb hwf hp hc hinc hnil
    obtain ⟨hlt, hadded⟩ :=
      observe_increase_inversion baselines slot_id b curr oldC newC delta
        added hb hinc
    rw [addedRecords_eq_filter b.courses curr hc] at hadded
    rw [hnil] at hadded
    have hall := List.filter_eq_nil_iff.mp hadded.symm
    have hsub : ∀ x ∈ curr.map Course.SubjectId,
        x ∈ b.courses.map Course.SubjectId := by
      intro x hx
      obtain ⟨c, hcm, rfl⟩ := List.mem_map.mp hx
      have h1 := hall c hcm
      simpa using h1
    have h1 : (curr.map Course.SubjectId).toFinset.card =
        (curr.map Course.SubjectId).length :=
      List.toFinset_card_of_nodup hc
    have h2 : (curr.map Course.SubjectId).toFinset ⊆
        (b.courses.map Course.SubjectId).toFinset := by
      intro x hx
      exact List.mem_toFinset.mpr (hsub x (List.mem_toFinset.mp hx))
    have h3 := Finset.card_le_card h2
    have h4 := List.toFinset_card_le (b.courses.map Course.SubjectId)
    simp only [List.length_map] at h1 h4
    omega
  · decide

/-- C10 witness: a distinct-id increase has the non-empty added list
`[record 11]`. -/
theorem observe_increase_added_nonempty_witness :
    (observe [(2, ⟨1, [⟨10, "A", "Alg", 2⟩]⟩)] 2
        [⟨10, "A", "Alg", 2⟩, ⟨11, "B", "Bio", 1⟩]).2 =
      .Increase 1 2 1 [⟨11, "B", "Bio", 1⟩] ∧
    ([⟨11, "B", "Bio", 1⟩] : List Course) ≠ [] :=
  ⟨by decide,
   observe_increase_added_nonempty.1 [(2, ⟨1, [⟨10, "A", "Alg", 2⟩]⟩)] 2
     ⟨1, [⟨10, "A", "Alg", 2⟩]⟩ [⟨10, "A", "Alg", 2⟩, ⟨11, "B", "Bio", 1⟩]
     1 2 1 [⟨11, "B", "Bio", 1⟩]
     (by decide) (by decide) (by decide) (by decide) (by decide)⟩

/-- C5 counterexample: three equal-count snapshots with different
records.  After observing all three, the baseline still stores the
*first* snapshot — it does not reflect the most recent snapshot
compared (the third), and it is strictly older than the second-most-
recent successful observation (the second). -/
theorem baseline_staleness_counterexample :
    pyLookup (observeSeq [] 1
        [[⟨1, "A", "An", 1⟩], [⟨2, "B", "Bn", 1⟩], [⟨3, "C", "Cn", 1⟩]]) 1 =
      some ⟨1, [⟨1, "A", "An", 1⟩]⟩ ∧
    ([⟨1, "A", "An", 1⟩] : List Course) ≠ [⟨2, "B", "Bn", 1⟩] ∧
    ([⟨1, "A", "An", 1⟩] : List Course) ≠ [⟨3, "C", "Cn", 1⟩] := by
  decide

/-- C5 amended: after any non-empty sequence of observations of a
slot, the stored baseline is the most recent observed snapshot whose
arrival changed the count (all later snapshots have the same count),
and the stored count always equals the count of the latest snapshot;
when counts repeat, the stored snapshot can be older than the
second-most-recent observation. -/
theorem baseline_reflects_last_count_change (slot_id : Nat)
    (snaps : List (List Course)) (h : snaps ≠ []) :
    ∃ (b : Baseline) (pre suf : List (List Course)) (s lastS : List Course),
      pyLookup (observeSeq [] slot_id snaps) slot_id = some b ∧
      snaps = pre ++ s :: suf ∧
      b.courses = s ∧ b.count = s.length ∧
      (∀ t ∈ suf, t.length = s.length) ∧
      snaps.getLast? = some lastS ∧ b.count = lastS.length :=
  (observeSeq_last_change slot_id snaps).resolve_left h

/-- C5 witness: the amended invariant evaluated on a concrete
two-snapshot history. -/
theorem baseline_reflects_last_count_change_witness :
    ∃ (b : Baseline) (pre suf : List (List Course)) (s lastS : List Course),
      pyLookup (observeSeq [] 1
          [[⟨1, "A", "An", 1⟩], [⟨2, "B", "Bn", 1⟩]]) 1 = some b ∧
      [[⟨1, "A", "An", 1⟩], [⟨2, "B", "Bn", 1⟩]] = pre ++ s :: suf ∧
      b.courses = s ∧ b.count = s.length ∧
      (∀ t ∈ suf, t.length = s.length) ∧
      ([[⟨1, "A", "An", 1⟩], [⟨2, "B", "Bn", 1⟩]] :
        List (List Course)).getLast? = some lastS ∧
      b.count = lastS.length :=
  baseline_reflects_last_count_change 1
    [[⟨1, "A", "An", 1⟩], [⟨2, "B", "Bn", 1⟩]] (by decide)

/-- C6 counterexample: `alert_admin` treats a missing key as a last
alert at time 0 (`_last_alert.get(key, 0)`), so with no entry for the
key and `now = 0 < cooldown = 3600` it returns `false` — the claim
says a call with no entry always records and returns `true`. -/
theorem shouldAlert_missing_key_counterexample :
    pyLookup ([] : LMap) "k" = none ∧
    (shouldAlert [] "k" 0 3600).1 = false := by decide

/-- C6 amended: `shouldAlert` suppresses (returns `false`, map
untouched) when `now - _last_alert.get(key, 0) < cooldown` and
otherwise records `now` and returns `true`; with no entry for the key
it fires iff `now ≥ cooldown` (the missing entry counts as time 0);
and the two-calls-then-wait scenario holds provided the first call
fires. -/
theorem shouldAlert_behavior (m : LMap) (key : String) (now cooldown : Int) :
    (now - lastAlertGet m key < cooldown →
      shouldAlert m key now cooldown = (false, m)) ∧
    (cooldown ≤ now - lastAlertGet m key →
      (shouldAlert m key now cooldown).1 = true ∧
      pyLookup (shouldAlert m key now cooldown).2 key = some now) ∧
    (pyLookup m key = none → cooldown ≤ now →
      (shouldAlert m key now cooldown).1 = true) ∧
    (∀ t1 t2 t3 : Int,
      cooldown ≤ t1 - lastAlertGet m key →
      t2 - t1 < cooldown →
      cooldown ≤ t3 - t1 →
      (shouldAlert m key t1 cooldown).1 = true ∧
      (shouldAlert (shouldAlert m key t1 cooldown).2 key t2 cooldown).1 =
        false ∧
      (shouldAlert
          (shouldAlert (shouldAlert m key t1 cooldown).2 key t2 cooldown).2
          key t3 cooldown).1 = true) := by
  refine ⟨?_, ?_, ?_, ?_⟩
  · intro h
    simp [shouldAlert, h]
  · intro h
    have hn : ¬ now - lastAlertGet m key < cooldown := not_lt.mpr h
    simp [shouldAlert, hn, pyLookup_pyInsert_self]
  · intro hnone hc
    have h0 : lastAlertGet m key = 0 := by simp [lastAlertGet, hnone]
    have hn : ¬ now - lastAlertGet m key < cooldown := by
      rw [h0]
      omega
    simp [shouldAlert, hn]
  · intro t1 t2 t3 h1 h2 h3
    have hn1 : ¬ t1 - lastAlertGet m key < cooldown := not_lt.mpr h1
    have hm1 : (shouldAlert m key t1 cooldown).2 = pyInsert m key t1 := by
      simp [shouldAlert, hn1]
    have hget1 : lastAlertGet (pyInsert m key t1) key = t1 := by
      simp [lastAlertGet, pyLookup_pyInsert_self]
    have hfire2 : t2 - lastAlertGet (pyInsert m key t1) key < cooldown := by
      rw [hget1]
      exact h2
    have hm2 : shouldAlert (pyInsert m key t1) key t2 cooldown =
        (false, pyInsert m key t1) := by
      simp [shouldAlert, hfire2]
    have hn3 : ¬ t3 - lastAlertGet (pyInsert m key t1) key < cooldown := by
      rw [hget1]
      omega
    refine ⟨by simp [shouldAlert, hn1], ?_, ?_⟩
    · rw [hm1, hm2]
    · rw [hm1, hm2]
      simp [shouldAlert, hn3]

/-- C6 witness: from an empty map with cooldown 3600, calls at times
4000, 4001 and 8000 fire, suppress, fire. -/
theorem shouldAlert_behavior_witness :
    (shouldAlert [] "k" 4000 3600).1 = true ∧
    (shouldAlert (shouldAlert [] "k" 4000 3600).2 "k" 4001 3600).1 = false ∧
    (shouldAlert
        (shouldAlert (shouldAlert [] "k" 4000 3600).2 "k" 4001 3600).2
        "k" 8000 3600).1 = true :=
  (shouldAlert_behavior [] "k" 0 3600).2.2.2 4000 4001 8000
    (by decide) (by decide) (by decide)

theorem lastAlertGet_pyInsert_self (m : LMap) (key : String) (v : Int) :
    lastAlertGet (pyInsert m key v) key = v := by
  simp [lastAlertGet, pyLookup_pyInsert_self]

/-- A limiter step that is neither a blanket clear nor a pop of `key`
never decreases the recorded last-alert time of `key` (when the
cooldown is non-negative). -/
theorem limStep_lastAlertGet_mono (cooldown : Int) (hcd : 0 ≤ cooldown)
    (m : LMap) (key : String) (op : LimiterOp)
    (hop : op ≠ .clearAll ∧ op ≠ .popKey key) :
    lastAlertGet m key ≤ lastAlertGet (limStep cooldown m op) key := by
  cases op with
  | alert k now =>
      by_cases hk : k = key
      · subst hk
        by_cases hfire : now - lastAlertGet m k < cooldown
        · simp [limStep, shouldAlert, hfire]
        · have h := not_lt.mp hfire
          simp only [limStep, shouldAlert, if_neg hfire]
          rw [lastAlertGet_pyInsert_self]
          omega
      · have hk' : key ≠ k := Ne.symm hk
        by_cases hfire : now - lastAlertGet m k < cooldown
        · simp [limStep, shouldAlert, hfire]
        · simp only [limStep, shouldAlert, if_neg hfire]
          simp [lastAlertGet, pyLookup_pyInsert_ne m k key now hk']
  | clearAll => exact absurd rfl hop.1
  | popKey k =>
      have hk : key ≠ k := fun h => hop.2 (by rw [h])
      simp [limStep, lastAlertGet, pyLookup_pyPop_ne m k key hk]

/-- Running limiter operations that never clear (globally or for
`key`) never decreases the recorded last-alert time of `key`. -/
theorem limRun_lastAlertGet_mono (cooldown : Int) (hcd : 0 ≤ cooldown)
    (key : String) (ops : List LimiterOp) :
    ∀ m : LMap, (∀ op ∈ ops, op ≠ .clearAll ∧ op ≠ .popKey key) →
      lastAlertGet m key ≤ lastAlertGet (limRun cooldown m ops) key := by
  induction ops with
  | nil => intro m _; exact le_refl _
  | cons op t ih =>
      intro m hops
      have h1 := limStep_lastAlertGet_mono cooldown hcd m key op
        (hops op (by simp))
      have h2 := ih (limStep cooldown m op)
        (fun o ho => hops o (by simp [ho]))
      calc lastAlertGet m key
          ≤ lastAlertGet (limStep cooldown m op) key := h1
        _ ≤ lastAlertGet (limRun cooldown (limStep cooldown m op) t) key := h2

/-- C7 counterexample: with cooldown 10, an alert for "k" fires at
time 100, `handle_set_cookie`'s `_last_alert.clear()` runs, and the
next alert for "k" fires at time 101 — two `true` alerts only 1 second
apart, violating the claimed invariant over the program's actual step
relation (which includes the clearing operations). -/
theorem alerts_cooldown_apart_counterexample :
    alertFires 10 (limRun 10 [] []) "k" 100 = true ∧
    alertFires 10 (limRun 10 [] [.alert "k" 100, .clearAll]) "k" 101 = true ∧
    ¬ ((100 : Int) + 10 ≤ 101) := by decide

/-- C7 amended: for a fixed key and non-negative cooldown, two `true`
alerts are at least `cooldown` seconds apart provided no clearing
operation (a blanket `_last_alert.clear()` or a pop of this key)
occurs between them; clearing operations void the guarantee. -/
theorem alerts_cooldown_apart (cooldown t1 t2 : Int) (key : String)
    (m0 : LMap) (pre mid : List LimiterOp)
    (hcd : 0 ≤ cooldown)
    (hmid : ∀ op ∈ mid, op ≠ .clearAll ∧ op ≠ .popKey key)
    (h1 : alertFires cooldown (limRun cooldown m0 pre) key t1 = true)
    (h2 : alertFires cooldown
        (limRun cooldown m0 (pre ++ LimiterOp.alert key t1 :: mid))
        key t2 = true) :
    t1 + cooldown ≤ t2 := by
  have hfire1 : ¬ t1 - lastAlertGet (limRun cooldown m0 pre) key <
      cooldown := by
    intro hc
    simp [alertFires, shouldAlert, hc] at h1
  have hsplit : limRun cooldown m0 (pre ++ LimiterOp.alert key t1 :: mid) =
      limRun cooldown
        (limStep cooldown (limRun cooldown m0 pre) (.alert key t1)) mid := by
    simp [limRun, List.foldl_append]
  have hins : limStep cooldown (limRun cooldown m0 pre) (.alert key t1) =
      pyInsert (limRun cooldown m0 pre) key t1 := by
    simp [limStep, shouldAlert, hfire1]
  have hmono := limRun_lastAlertGet_mono cooldown hcd key mid
    (pyInsert (limRun cooldown m0 pre) key t1) hmid
  rw [lastAlertGet_pyInsert_self] at hmono
  have hfire2 : ¬ t2 - lastAlertGet
      (limRun cooldown m0 (pre ++ LimiterOp.alert key t1 :: mid)) key <
      cooldown := by
    intro hc
    simp [alertFires, shouldAlert, hc] at h2
  rw [hsplit, hins] at hfire2
  omega

/-- C7 witness: with cooldown 10, a `true` alert at time 100 followed
by an unrelated alert and a `true` alert at 115 with no clears between
them: the two alerts are indeed at least 10 apart. -/
theorem alerts_cooldown_apart_witness : (100 : Int) + 10 ≤ 115 :=
  alerts_cooldown_apart 10 100 115 "k" [] [] [.alert "z" 50]
    (by decide) (by decide) (by decide) (by decide)

/-- C8 counterexample: a successful `fetch_courses(4)` pops only
`slot4_empty`; a stored `slot4_timeout` entry survives the recovery,
so the next timeout failure within the cooldown is still suppressed —
the claim promises clearing for every failure category. -/
theorem recovery_clears_only_empty_counterexample :
    pyLookup (fetchSuccessClear 4 [(slotKey 4 "timeout", 50)])
        (slotKey 4 "timeout") = some 50 ∧
    alertFires 3600 (fetchSuccessClear 4 [(slotKey 4 "timeout", 50)])
        (slotKey 4 "timeout") 1000 = false := by decide

/-- C8 amended: a successful fetch for a slot clears exactly the
slot's empty-response key `slot{id}_empty` — afterwards that key is
absent, every other key (in particular the conn/timeout/http/err
categories) is untouched, and the next empty-response failure alerts
immediately (whenever `now ≥ cooldown`, which epoch timestamps always
satisfy). -/
theorem recovery_clears_empty_key (slot_id : Nat) (m : LMap)
    (hnd : (m.map Prod.fst).Nodup) :
    pyLookup (fetchSuccessClear slot_id m) (slotKey slot_id "empty") =
      none ∧
    (∀ k, k ≠ slotKey slot_id "empty" →
      pyLookup (fetchSuccessClear slot_id m) k = pyLookup m k) ∧
    (∀ cooldown now : Int, cooldown ≤ now →
      alertFires cooldown (fetchSuccessClear slot_id m)
        (slotKey slot_id "empty") now = true) := by
  have hnone : pyLookup (fetchSuccessClear slot_id m)
      (slotKey slot_id "empty") = none :=
    pyLookup_pyPop_self m (slotKey slot_id "empty") hnd
  refine ⟨hnone, ?_, ?_⟩
  · intro k hk
    exact pyLookup_pyPop_ne m (slotKey slot_id "empty") k hk
  · intro cooldown now hc
    have h0 : lastAlertGet (fetchSuccessClear slot_id m)
        (slotKey slot_id "empty") = 0 := by
      simp [lastAlertGet, hnone]
    have hn : ¬ now - lastAlertGet (fetchSuccessClear slot_id m)
        (slotKey slot_id "empty") < cooldown := by
      rw [h0]
      omega
    simp [alertFires, shouldAlert, hn]

/-- C8 witness: with both the empty and timeout keys recorded for
slot 4, a successful fetch removes the empty key, keeps the timeout
key, and a later empty-response failure fires. -/
theorem recovery_clears_empty_key_witness :
    pyLookup
        (fetchSuccessClear 4
          [(slotKey 4 "empty", 50), (slotKey 4 "timeout", 60)])
        (slotKey 4 "empty") = none ∧
    pyLookup
        (fetchSuccessClear 4
          [(slotKey 4 "empty", 50), (slotKey 4 "timeout", 60)])
        (slotKey 4 "timeout") = some 60 ∧
    alertFires 3600
        (fetchSuccessClear 4
          [(slotKey 4 "empty", 50), (slotKey 4 "timeout", 60)])
        (slotKey 4 "empty") 5000 = true := by
  have h := recovery_clears_empty_key 4
    [(slotKey 4 "empty", 50), (slotKey 4 "timeout", 60)] (by decide)
  exact ⟨h.1, h.2.1 (slotKey 4 "timeout") (by decide), h.2.2 3600 5000 (by decide)⟩

end ArmsMonitor
